import Mathlib

/-!
Verification development for the zenlings interactive tutor.

This file gives a shallow embedding of the core of the program:
the exercise catalog and progress record (`src/app_state.rs`,
`src/exercise.rs`), the verification functions (`src/verify.rs`),
the debouncer (`src/watch.rs`), and the application event loop and
verification worker (`src/main.rs`).  Subprocess executions and the
system clock are modelled as explicit environment inputs; machine
integers are modelled as `Nat` (the quantities involved — list
lengths, indices, millisecond durations — never approach overflow
in the program).  Fallible Rust code returning `anyhow::Result` is
modelled with `Except String` / `Except Unit`, and the `?` operator
as error propagation.
-/

namespace Zenlings

/-! ## Data model (`src/exercise.rs`, `src/app_state.rs`) -/

/-- Resolved exercise descriptor, from `Exercise` in `src/exercise.rs`.
Paths are modelled as plain strings. -/
structure Exercise where
  name : String
  dir : String
  hint : Option String
  path : String
  solution_path : String
  pipeline_name : String
  verify_status : String
  verify_step_count : Option Nat
deriving DecidableEq, Inhabited

/-- Persisted progress record, from `ProgressFile` in `src/app_state.rs`.
The `hints_used` map is modelled as an association list; timestamps are
the strings produced by `now_iso`. -/
structure ProgressFile where
  version : Nat
  completed : List String
  current : Option String
  hints_used : List (String × Nat)
  started_at : Option String
  last_activity : Option String
deriving DecidableEq, Inhabited

/-- `ProgressFile::new` from `src/app_state.rs`; `now` is the string the
program would obtain from `now_iso()`. -/
def ProgressFile.new (now : String) : ProgressFile :=
  { version := 1
    completed := []
    current := none
    hints_used := []
    started_at := some now
    last_activity := some now }

/-! ## Verification results (`src/verify.rs`) -/

/-- `VerifyOutcome` from `src/verify.rs`. -/
inductive VerifyOutcome where
  | Passed
  | Failed
deriving DecidableEq, Inhabited

/-- `VerifyResult` from `src/verify.rs`. -/
structure VerifyResult where
  exercise_name : String
  outcome : VerifyOutcome
  python_exit_ok : Bool
  python_output : String
  zenml_checked : Bool
  zenml_output : String
  message : String
deriving DecidableEq, Inhabited

/-- `VerifyResult::passed` from `src/verify.rs`. -/
def VerifyResult.passed (r : VerifyResult) : Bool :=
  r.outcome == VerifyOutcome.Passed

/-- `OutputLine` from `src/verify.rs`. -/
inductive OutputLine where
  | Stdout (s : String)
  | Stderr (s : String)
  | Done (ok : Bool)
deriving DecidableEq, Inhabited

/-! ## JSON values and status parsing (`src/verify.rs`)

`parse_zenml_status` first runs `serde_json::from_str` and then walks the
resulting value with `get("items")`, `get(0)`, `get("status")`, `as_str()`.
The serde parser is external; we model its output as an `Option Json`
(`none` = the string failed to parse) and embed the walk faithfully. -/

/-- A JSON value in the image of `serde_json::Value`. -/
inductive Json where
  | null
  | bool (b : Bool)
  | num (n : Int)
  | str (s : String)
  | arr (items : List Json)
  | obj (fields : List (String × Json))

/-- `Value::get` with a string key: field lookup on objects, `None` otherwise. -/
def Json.getField : Json → String → Option Json
  | .obj fields, key => fields.lookup key
  | _, _ => none

/-- `Value::get` with a numeric index: element lookup on arrays, `None` otherwise. -/
def Json.getIdx : Json → Nat → Option Json
  | .arr items, i => items.get? i
  | _, _ => none

/-- `Value::as_str`. -/
def Json.asStr : Json → Option String
  | .str s => some s
  | _ => none

/-- `parse_zenml_status` from `src/verify.rs`.  The argument is the result
of `serde_json::from_str(json_str).ok()`; the walk
`value.get("items")?.get(0)?.get("status")?.as_str()` is embedded directly. -/
def parse_zenml_status (parsed : Option Json) : Option String := do
  let value ← parsed
  let items ← value.getField "items"
  let first ← items.getIdx 0
  let status ← first.getField "status"
  status.asStr

/-! ## Subprocess environments

The behaviour of the learner-script and status-tool subprocesses is an
input to the embedded functions. -/

/-- Behaviour of one `run_python_capture` call (`src/verify.rs`):
either the spawn fails (the function returns `Err`), or the process runs
to completion with an exit status and combined captured output. -/
inductive CaptureExec where
  | spawnFailed
  | ran (exitOk : Bool) (output : String)
deriving DecidableEq, Inhabited

/-- Behaviour of one `zenml pipeline runs list` invocation
(`run_zenml_status_check` in `src/verify.rs`): either the spawn fails, or
the tool exits with a status, stdout and stderr; `parsed` is
`serde_json::from_str(stdout).ok()`. -/
inductive ZenmlExec where
  | spawnFailed
  | ran (exitOk : Bool) (stdout stderr : String) (parsed : Option Json)

/-- Subprocess behaviour consumed by one `verify_exercise` call. -/
structure VerifyEnv where
  capture : CaptureExec
  zenml : ZenmlExec

/-- `run_python_capture` from `src/verify.rs`, as a function of the
subprocess behaviour: `Err` on spawn failure, otherwise the exit flag and
the combined output. -/
def run_python_capture : CaptureExec → Except String (Bool × String)
  | .spawnFailed => .error "Failed to run Python"
  | .ran exitOk output => .ok (exitOk, output)

/-- `run_zenml_status_check` from `src/verify.rs`: `Err` if the CLI cannot
be spawned; `(false, combined, None)` if it exits unsuccessfully; otherwise
`(true, combined, parse_zenml_status stdout)`. -/
def run_zenml_status_check : ZenmlExec → Except String (Bool × String × Option String)
  | .spawnFailed => .error "Failed to run zenml CLI"
  | .ran exitOk stdout stderr parsed =>
    let combined := if stderr = "" then stdout else stdout ++ "\n" ++ stderr
    if exitOk then
      .ok (true, combined, parse_zenml_status parsed)
    else
      .ok (false, combined, none)

/-- `verify_exercise` from `src/verify.rs` (full verification mode):
run the script, then the status tool, then compare the parsed status with
the exercise's expected status. -/
def verify_exercise (ex : Exercise) (env : VerifyEnv) : Except String VerifyResult :=
  match run_python_capture env.capture with
  | .error e => .error e
  | .ok (python_ok, python_output) =>
    if python_ok = false then
      .ok { exercise_name := ex.name
            outcome := .Failed
            python_exit_ok := false
            python_output := python_output
            zenml_checked := false
            zenml_output := ""
            message := "Python script failed" }
    else
      match run_zenml_status_check env.zenml with
      | .error e => .error e
      | .ok (zenml_ok, zenml_output, status) =>
        if zenml_ok = false then
          .ok { exercise_name := ex.name
                outcome := .Failed
                python_exit_ok := true
                python_output := python_output
                zenml_checked := true
                zenml_output := zenml_output
                message := "ZenML status check failed" }
        else
          let status_matches := (status.map (fun s => s == ex.verify_status)).getD false
          if status_matches then
            .ok { exercise_name := ex.name
                  outcome := .Passed
                  python_exit_ok := true
                  python_output := python_output
                  zenml_checked := true
                  zenml_output := zenml_output
                  message := "Pipeline " ++ ex.verify_status }
          else
            let actual_status := status.getD "unknown"
            .ok { exercise_name := ex.name
                  outcome := .Failed
                  python_exit_ok := true
                  python_output := python_output
                  zenml_checked := true
                  zenml_output := zenml_output
                  message := "Pipeline status '" ++ actual_status ++ "', expected '"
                    ++ ex.verify_status ++ "'" }

/-! ## Streaming verification (`run_python_streaming` and the worker) -/

/-- One line written by the child on one of its standard streams. -/
inductive StreamLine where
  | stdout (s : String)
  | stderr (s : String)
deriving DecidableEq, Inhabited

/-- Tag a stream line as the `OutputLine` the reader threads send. -/
def StreamLine.toOutput : StreamLine → OutputLine
  | .stdout s => .Stdout s
  | .stderr s => .Stderr s

/-- Behaviour of one `run_python_streaming` call (`src/verify.rs`):
the spawn may fail (`Err` before anything is sent); `child.wait()` may
fail after some lines were streamed (`Err`, no `Done` sent); or the child
exits, all lines are streamed, the readers are joined and `Done` is sent.
`lines` is the order in which the two reader threads' sends are enqueued
on the shared channel (per-stream order is preserved; interleaving between
the streams is arbitrary, so it is quantified over). -/
inductive ScriptExec where
  | spawnFailed
  | waitFailed (lines : List StreamLine)
  | exited (lines : List StreamLine) (exitOk : Bool)

/-- `run_python_streaming` from `src/verify.rs`, as a function of the
subprocess behaviour.  Returns the sequence of `OutputLine`s sent on the
output channel and the function's return value (`none` = `Err`).  The
`Done` message is sent only on the successful path, after both reader
threads are joined. -/
def run_python_streaming : ScriptExec → List OutputLine × Option Bool
  | .spawnFailed => ([], none)
  | .waitFailed lines => (lines.map StreamLine.toOutput, none)
  | .exited lines exitOk => (lines.map StreamLine.toOutput ++ [.Done exitOk], some exitOk)

/-- `VerifyMessage` from `src/main.rs`. -/
inductive VerifyMessage where
  | Output (line : OutputLine)
  | Result (r : VerifyResult)
deriving DecidableEq, Inhabited

/-- Whether a worker message is a `Result`. -/
def VerifyMessage.isResult : VerifyMessage → Bool
  | .Result _ => true
  | _ => false

/-- Whether a worker message is an `Output(Done(_))`. -/
def VerifyMessage.isDoneOutput : VerifyMessage → Bool
  | .Output (.Done _) => true
  | _ => false

/-- The `output_forwarder` thread of `verification_worker` in
`src/main.rs`: forward every line received on the run's channel, and stop
right after forwarding a `Done` line (or when the channel closes). -/
def forward_output : List OutputLine → List OutputLine
  | [] => []
  | line :: rest =>
    match line with
    | .Done ok => [.Done ok]
    | l => l :: forward_output rest

/-- Subprocess behaviour consumed by one `Run` request: the streaming run
of the learner script, and (in full mode) the subprocesses of the
follow-up `verify_exercise` call. -/
structure RunEnv where
  streaming : ScriptExec
  full : VerifyEnv

/-- The `VerifyResult` built by `verification_worker` in `src/main.rs`
for one `Run` request, after the streaming run finished. -/
def worker_run_result (simpleMode : Bool) (ex : Exercise) (env : RunEnv) : VerifyResult :=
  let python_ok := (run_python_streaming env.streaming).2.getD false
  if simpleMode then
    { exercise_name := ex.name
      outcome := if python_ok then .Passed else .Failed
      python_exit_ok := python_ok
      python_output := ""
      zenml_checked := false
      zenml_output := ""
      message := if python_ok then "Exercise completed successfully" else "Python script failed" }
  else if python_ok = false then
    { exercise_name := ex.name
      outcome := .Failed
      python_exit_ok := false
      python_output := ""
      zenml_checked := false
      zenml_output := ""
      message := "Python script failed" }
  else
    match verify_exercise ex env.full with
    | .ok r => r
    | .error e =>
      { exercise_name := ex.name
        outcome := .Failed
        python_exit_ok := true
        python_output := ""
        zenml_checked := false
        zenml_output := "Error: " ++ e
        message := "Verification error: " ++ e }

/-- The full sequence of messages the loop receives for one `Run` request:
the forwarded output lines, then the single `Result`.  (`Result` is sent
on the worker's own handle after the forwarder thread is joined, so it
follows every forwarded message.) -/
def worker_run_messages (simpleMode : Bool) (ex : Exercise) (env : RunEnv) :
    List VerifyMessage :=
  (forward_output (run_python_streaming env.streaming).1).map VerifyMessage.Output
    ++ [VerifyMessage.Result (worker_run_result simpleMode ex env)]

/-- One item on the worker's request channel, paired with the subprocess
behaviour its processing would consume. -/
inductive WorkItem where
  | run (ex : Exercise) (env : RunEnv)
  | stop

/-- `verification_worker` from `src/main.rs`: process `Run` requests in
order, emitting each run's messages; `Stop` breaks the loop. -/
def verification_worker (simpleMode : Bool) : List WorkItem → List VerifyMessage
  | [] => []
  | .run ex env :: rest =>
    worker_run_messages simpleMode ex env ++ verification_worker simpleMode rest
  | .stop :: _ => []

/-- The number of `Run` requests the worker processes: those before the
first `Stop`. -/
def runs_before_stop : List WorkItem → Nat
  | [] => 0
  | .run _ _ :: rest => runs_before_stop rest + 1
  | .stop :: _ => 0

/-! ## Debouncer (`src/watch.rs`)

`Instant` timestamps are modelled as `Nat` milliseconds; the monotone
clock means `now` is at least any recorded `last_event_time`, and
`duration_since` is truncated subtraction. -/

/-- `Debouncer` from `src/watch.rs`. -/
structure Debouncer where
  last_event_time : Option Nat
  debounce_duration : Nat
deriving DecidableEq, Inhabited

/-- `Debouncer::new` from `src/watch.rs` (duration in milliseconds). -/
def Debouncer.new (debounce_ms : Nat) : Debouncer :=
  { last_event_time := none, debounce_duration := debounce_ms }

/-- `Debouncer::should_process` from `src/watch.rs` — the `observe()`
operation of the specification.  Records the event time; returns `false`
when the previous event was less than the window ago. -/
def Debouncer.should_process (d : Debouncer) (now : Nat) : Debouncer × Bool :=
  match d.last_event_time with
  | some last =>
    if now - last < d.debounce_duration then
      ({ d with last_event_time := some now }, false)
    else
      ({ d with last_event_time := some now }, true)
  | none => ({ d with last_event_time := some now }, true)

/-- `Debouncer::ready_to_trigger` from `src/watch.rs`. -/
def Debouncer.ready_to_trigger (d : Debouncer) (now : Nat) : Bool :=
  match d.last_event_time with
  | some last => decide (d.debounce_duration ≤ now - last)
  | none => false

/-- `Debouncer::reset` from `src/watch.rs`. -/
def Debouncer.reset (d : Debouncer) : Debouncer :=
  { d with last_event_time := none }

/-! ## Application state and the event loop (`src/app_state.rs`, `src/main.rs`) -/

/-- `Iterator::position` on a list: the index of the first element
satisfying the predicate. -/
def position (p : α → Bool) : List α → Option Nat
  | [] => none
  | x :: xs => if p x then some 0 else (position p xs).map (· + 1)

/-- The fallback of `AppState::resolve_current_index`
(`src/app_state.rs`): the first exercise whose name is not in the
completed set, or the last index when every exercise is completed. -/
def first_incomplete_index (exercises : List Exercise) (progress : ProgressFile) : Nat :=
  match position (fun e => !(progress.completed.contains e.name)) exercises with
  | some idx => idx
  | none => exercises.length - 1

/-- `AppState::resolve_current_index` from `src/app_state.rs`: prefer the
index of the exercise named by `progress.current`; otherwise fall back to
the first incomplete exercise, then to the last index. -/
def resolve_current_index (exercises : List Exercise) (progress : ProgressFile) : Nat :=
  match progress.current.bind (fun name => position (fun e => e.name == name) exercises) with
  | some idx => idx
  | none => first_incomplete_index exercises progress

/-- The guarded push of `AppState::mark_completed` (`src/app_state.rs`)
on the completed list: append the name unless it is already present. -/
def mark_completed (completed : List String) (name : String) : List String :=
  if completed.contains name then completed else completed ++ [name]

/-- State owned by the application loop: the `AppState` of
`src/app_state.rs` together with the loop-local `output_buffer` of
`src/main.rs`, the canonical progress file on disk, and the names of the
`Run` requests sent to the worker whose `Result` has not yet been
consumed by the loop (oldest first; the worker is sequential and answers
them in order). -/
structure LoopState where
  exercises : List Exercise
  currentIndex : Nat
  progress : ProgressFile
  disk : Option ProgressFile
  lastVerify : Option VerifyResult
  verifying : Bool
  outputBuffer : List String
  pendingRuns : List String
deriving DecidableEq, Inhabited

/-- `AppState::current_exercise` from `src/app_state.rs` (in-bounds in
every state the program reaches; out of bounds the Rust code would panic,
the model returns the default exercise). -/
def LoopState.current_exercise (s : LoopState) : Exercise :=
  (s.exercises.get? s.currentIndex).getD default

/-- `AppState::mark_completed` lifted to the loop state. -/
def LoopState.markCompleted (s : LoopState) (name : String) : LoopState :=
  { s with progress := { s.progress with completed := mark_completed s.progress.completed name } }

/-- `AppState::save_progress` from `src/app_state.rs`: update
`last_activity` and `current` in memory, then atomically replace the file
on disk.  `nowIso` is the `now_iso()` string; `saveOk` says whether the
write/rename succeeds.  On failure the in-memory updates remain and the
canonical file is unchanged (the write is atomic); the returned flag is
`false`. -/
def save_progress (s : LoopState) (nowIso : String) (saveOk : Bool) : LoopState × Bool :=
  let p := { s.progress with
             last_activity := some nowIso
             current := some s.current_exercise.name }
  let s1 := { s with progress := p }
  if saveOk then ({ s1 with disk := some p }, true) else (s1, false)

/-- The `VerifyMessage::Result` arm of the loop's drain in `src/main.rs`:
apply the result only when its exercise name matches the current
exercise; on a pass, mark completed and `save_progress()?` (a failing
save propagates as an error out of the loop, modelled by `.error ()`). -/
def handle_result (s : LoopState) (r : VerifyResult) (nowIso : String) (saveOk : Bool) :
    Except Unit LoopState :=
  if r.exercise_name == s.current_exercise.name then
    match (if r.passed then
             match save_progress (s.markCompleted r.exercise_name) nowIso saveOk with
             | (s2, true) => Except.ok s2
             | (_, false) => Except.error ()
           else Except.ok s) with
    | .ok s1 => .ok { s1 with lastVerify := some r, verifying := false }
    | .error e => .error e
  else
    .ok s

/-- The `VerifyMessage::Output` arm of the loop's drain in `src/main.rs`:
push stdout/stderr lines into the bounded buffer (evicting the oldest
line past 100 entries); `Done` is a no-op. -/
def handle_output (buf : List String) (line : OutputLine) : List String :=
  match line with
  | .Stdout s =>
    let b := buf ++ [s]
    if b.length > 100 then b.drop 1 else b
  | .Stderr s =>
    let b := buf ++ [s]
    if b.length > 100 then b.drop 1 else b
  | .Done _ => buf

/-- `handle_output` lifted to the loop state. -/
def LoopState.pushOutput (s : LoopState) (line : OutputLine) : LoopState :=
  { s with outputBuffer := handle_output s.outputBuffer line }

/-- `AppState::next` from `src/app_state.rs`. -/
def app_next (s : LoopState) : LoopState :=
  if s.currentIndex < s.exercises.length - 1 then
    { s with currentIndex := s.currentIndex + 1, lastVerify := none }
  else s

/-- `AppState::prev` from `src/app_state.rs`. -/
def app_prev (s : LoopState) : LoopState :=
  if 0 < s.currentIndex then
    { s with currentIndex := s.currentIndex - 1, lastVerify := none }
  else s

/-- The `Action::Next` arm of the loop in `src/main.rs`:
`state.next(); state.save_progress()?;` then clear the output buffer and
`last_verify`. -/
def handle_next (s : LoopState) (nowIso : String) (saveOk : Bool) : Except Unit LoopState :=
  match save_progress (app_next s) nowIso saveOk with
  | (s2, true) => .ok { s2 with outputBuffer := [], lastVerify := none }
  | (_, false) => .error ()

/-- The `Action::Prev` arm of the loop in `src/main.rs`. -/
def handle_prev (s : LoopState) (nowIso : String) (saveOk : Bool) : Except Unit LoopState :=
  match save_progress (app_prev s) nowIso saveOk with
  | (s2, true) => .ok { s2 with outputBuffer := [], lastVerify := none }
  | (_, false) => .error ()

/-- The `Action::Rerun` arm of the loop in `src/main.rs` (the
debounce-trigger path at the top of the tick has the same state effect,
behind the additional `pending_verify && ready_to_trigger` guard): when
not verifying, set `verifying`, clear `last_verify` and the output
buffer, and send `Run(current_exercise)` to the worker. -/
def handle_rerun (s : LoopState) : LoopState :=
  if s.verifying then s
  else
    { s with
      verifying := true
      lastVerify := none
      outputBuffer := []
      pendingRuns := s.pendingRuns ++ [s.current_exercise.name] }

/-- One transition of the application loop as implemented in
`src/main.rs`.  Each constructor is one state-mutating arm of the tick;
the `result` transition consumes the `Result` of the oldest outstanding
`Run` (the worker answers requests in order, and the result it builds
carries that run's exercise name). -/
inductive Step : LoopState → LoopState → Prop where
  | rerun (s : LoopState) : Step s (handle_rerun s)
  | output (s : LoopState) (line : OutputLine) : Step s (s.pushOutput line)
  | result (s s' : LoopState) (r : VerifyResult) (rest : List String)
      (nowIso : String) (saveOk : Bool)
      (hpend : s.pendingRuns = r.exercise_name :: rest)
      (hres : handle_result { s with pendingRuns := rest } r nowIso saveOk = .ok s') :
      Step s s'
  | next (s s' : LoopState) (nowIso : String) (saveOk : Bool)
      (h : handle_next s nowIso saveOk = .ok s') : Step s s'
  | prev (s s' : LoopState) (nowIso : String) (saveOk : Bool)
      (h : handle_prev s nowIso saveOk = .ok s') : Step s s'

/-- Reachability of loop states by tick transitions. -/
def Reachable (s0 s : LoopState) : Prop :=
  Relation.ReflTransGen Step s0 s

/-- The loop state right after `AppState::load` (`src/app_state.rs`) and
the loop set-up in `main` (`src/main.rs`): `loaded` is the parsed
progress file when one exists on disk, otherwise the fresh default is
used; nothing is verifying and no request is outstanding. -/
def init_state (exercises : List Exercise) (loaded : Option ProgressFile) (now : String) :
    LoopState :=
  let progress := loaded.getD (ProgressFile.new now)
  { exercises := exercises
    currentIndex := resolve_current_index exercises progress
    progress := progress
    disk := loaded
    lastVerify := none
    verifying := false
    outputBuffer := []
    pendingRuns := [] }

/-- `AppState::completed_count` from `src/app_state.rs`. -/
def completed_count (p : ProgressFile) : Nat := p.completed.length

/-- `AppState::total_count` from `src/app_state.rs`. -/
def total_count (exercises : List Exercise) : Nat := exercises.length

/-- `AppState::all_completed` from `src/app_state.rs`. -/
def all_completed (exercises : List Exercise) (p : ProgressFile) : Bool :=
  decide (completed_count p ≥ total_count exercises)

/-! ## Concrete fixtures used by witnesses and counterexamples -/

/-- A two-exercise catalog: the first exercise of the pack. -/
def ex_load1 : Exercise :=
  { name := "load1"
    dir := "01_loading"
    hint := none
    path := "exercises/01_loading/load1.py"
    solution_path := "solutions/01_loading/load1.py"
    pipeline_name := "load1_pipeline"
    verify_status := "completed"
    verify_step_count := none }

/-- A two-exercise catalog: the second exercise of the pack. -/
def ex_load2 : Exercise :=
  { name := "load2"
    dir := "01_loading"
    hint := none
    path := "exercises/01_loading/load2.py"
    solution_path := "solutions/01_loading/load2.py"
    pipeline_name := "load2_pipeline"
    verify_status := "completed"
    verify_step_count := none }

/-- The status-tool JSON `{"items": [{"status": "running"}]}`. -/
def json_running : Json :=
  Json.obj [("items", Json.arr [Json.obj [("status", Json.str "running")]])]

/-- A passing `Result` for `load1`, as built by the worker in simple mode. -/
def result_load1_passed : VerifyResult :=
  { exercise_name := "load1"
    outcome := .Passed
    python_exit_ok := true
    python_output := ""
    zenml_checked := false
    zenml_output := ""
    message := "Exercise completed successfully" }

/-- A passing `Result` carrying the name `load2`, stale once the current
exercise is `load1`. -/
def result_load2_passed : VerifyResult :=
  { result_load1_passed with exercise_name := "load2" }

/-- A progress record whose only completed identifier names no exercise
of the catalog `[ex_load1]`. -/
def progress_stale : ProgressFile :=
  { version := 1
    completed := ["ghost"]
    current := none
    hints_used := []
    started_at := none
    last_activity := none }

/-- A progress record pointing at `load2`. -/
def progress_current_load2 : ProgressFile :=
  { version := 1
    completed := []
    current := some "load2"
    hints_used := []
    started_at := none
    last_activity := none }

/-- The progress record after the `Next` keypress of the stale-result
trace: `current` moved to `load2` and `last_activity` updated by the
save. -/
def progress_after_next : ProgressFile :=
  { version := 1
    completed := []
    current := some "load2"
    hints_used := []
    started_at := some "0"
    last_activity := some "1" }

/-- The loop state at the end of the stale-result trace: a `Rerun` was
fired for `load1`, the learner pressed `Next`, and the (now stale)
`Result` for `load1` was consumed.  The code leaves `verifying = true`
although no `Run` is outstanding any more. -/
def stale_trace_final : LoopState :=
  { exercises := [ex_load1, ex_load2]
    currentIndex := 1
    progress := progress_after_next
    disk := some progress_after_next
    lastVerify := none
    verifying := true
    outputBuffer := []
    pendingRuns := [] }

/-- Containment of one string in another, witnessed by a decomposition of
the underlying character list. -/
def str_contains (hay needle : String) : Prop :=
  ∃ pre post : List Char, hay.data = pre ++ needle.data ++ post

/-! ## Helper lemmas -/

theorem position_lt_length {α : Type _} {p : α → Bool} {l : List α} {i : Nat}
    (h : position p l = some i) : i < l.length := by
  induction l generalizing i with
  | nil => simp [position] at h
  | cons x xs ih =>
    simp only [position] at h
    by_cases hp : p x
    · rw [if_pos hp] at h
      cases h
      simp
    · rw [if_neg hp] at h
      rcases Option.map_eq_some'.mp h with ⟨j, hj, rfl⟩
      have := ih hj
      simp only [List.length_cons]
      omega

theorem position_getD {α : Type _} {p : α → Bool} (d : α) {l : List α} {i : Nat}
    (h : position p l = some i) : p (l.getD i d) = true := by
  induction l generalizing i with
  | nil => simp [position] at h
  | cons x xs ih =>
    simp only [position] at h
    by_cases hp : p x
    · rw [if_pos hp] at h
      cases h
      simpa [List.getD] using hp
    · rw [if_neg hp] at h
      rcases Option.map_eq_some'.mp h with ⟨j, hj, rfl⟩
      simpa [List.getD] using ih hj

theorem position_earlier {α : Type _} {p : α → Bool} (d : α) {l : List α} {i : Nat}
    (h : position p l = some i) : ∀ j, j < i → p (l.getD j d) = false := by
  induction l generalizing i with
  | nil => simp [position] at h
  | cons x xs ih =>
    simp only [position] at h
    by_cases hp : p x
    · rw [if_pos hp] at h
      cases h
      intro j hj
      exact absurd hj (Nat.not_lt_zero j)
    · rw [if_neg hp] at h
      rcases Option.map_eq_some'.mp h with ⟨k, hk, rfl⟩
      intro j hj
      cases j with
      | zero =>
        have hx : p x = false := by
          revert hp
          cases p x <;> simp
        simpa [List.getD] using hx
      | succ j' =>
        simpa [List.getD] using ih hk j' (by omega)

theorem position_eq_none_iff {α : Type _} {p : α → Bool} {l : List α} :
    position p l = none ↔ ∀ x ∈ l, p x = false := by
  induction l with
  | nil => simp [position]
  | cons x xs ih =>
    simp only [position]
    by_cases hp : p x
    · simp [hp]
    · have hx : p x = false := by
        revert hp
        cases p x <;> simp
      simp [hp, hx, ih, Option.map_eq_none']

theorem forward_output_no_done (lines : List StreamLine) :
    forward_output (lines.map StreamLine.toOutput) = lines.map StreamLine.toOutput := by
  induction lines with
  | nil => rfl
  | cons l rest ih => cases l <;> simp [StreamLine.toOutput, forward_output, ih]

theorem forward_output_with_done (lines : List StreamLine) (ok : Bool) :
    forward_output (lines.map StreamLine.toOutput ++ [OutputLine.Done ok])
      = lines.map StreamLine.toOutput ++ [OutputLine.Done ok] := by
  induction lines with
  | nil => rfl
  | cons l rest ih => cases l <;> simp [StreamLine.toOutput, forward_output, ih]

theorem stream_outputs_are_std (lines : List StreamLine) :
    ∀ l ∈ lines.map StreamLine.toOutput,
      (∃ s, l = OutputLine.Stdout s) ∨ (∃ s, l = OutputLine.Stderr s) := by
  intro l hl
  rcases List.mem_map.mp hl with ⟨a, _, rfl⟩
  cases a with
  | stdout s => exact Or.inl ⟨s, rfl⟩
  | stderr s => exact Or.inr ⟨s, rfl⟩

theorem countP_result_map_output (outs : List OutputLine) :
    (outs.map VerifyMessage.Output).countP VerifyMessage.isResult = 0 := by
  refine List.countP_eq_zero.mpr ?_
  intro m hm
  rcases List.mem_map.mp hm with ⟨a, _, rfl⟩
  simp [VerifyMessage.isResult]

theorem worker_run_messages_one_result (simpleMode : Bool) (ex : Exercise) (env : RunEnv) :
    (worker_run_messages simpleMode ex env).countP VerifyMessage.isResult = 1 := by
  unfold worker_run_messages
  rw [List.countP_append, countP_result_map_output]
  simp [List.countP_cons, VerifyMessage.isResult]

theorem message_contains_quoted (a e : String) :
    str_contains ("Pipeline status '" ++ a ++ "', expected '" ++ e ++ "'") ("'" ++ a ++ "'")
      ∧ str_contains ("Pipeline status '" ++ a ++ "', expected '" ++ e ++ "'")
          ("'" ++ e ++ "'") := by
  constructor
  · refine ⟨ "Pipeline status ".data, (", expected '" ++ e ++ "'").data, ?_⟩
    simp [String.data_append]
  · refine ⟨( "Pipeline status '" ++ a ++ "', expected ").data, [], ?_⟩
    simp [String.data_append]

theorem zenml_check_message_contains :
    str_contains "ZenML status check failed" "status check failed" := by
  refine ⟨ "ZenML ".data, [], ?_⟩
  simp [String.data_append]

/-! ## Claim theorems -/

/-- C8: `mark_completed` has set semantics — marking an exercise already
in `progress.completed` leaves the list unchanged (no duplicate,
first-insertion order preserved), marking a new one appends its name at
the end, and marking twice equals marking once. -/
theorem mark_completed_set_semantics (c : List String) (n : String) :
    (n ∈ c → mark_completed c n = c)
      ∧ (n ∉ c → mark_completed c n = c ++ [n])
      ∧ mark_completed (mark_completed c n) n = mark_completed c n := by
  by_cases h : n ∈ c
  · exact ⟨fun _ => by simp [mark_completed, h],
      fun hn => absurd h hn,
      by simp [mark_completed, h]⟩
  · exact ⟨fun hn => absurd hn h,
      fun _ => by simp [mark_completed, h],
      by simp [mark_completed, h]⟩

/-- Witness for C8 at a concrete completed list. -/
theorem mark_completed_set_semantics_witness :
    mark_completed ["load1"] "load1" = ["load1"]
      ∧ mark_completed ["load1"] "load2" = ["load1", "load2"] :=
  ⟨(mark_completed_set_semantics ["load1"] "load1").1 (by simp),
   (mark_completed_set_semantics ["load1"] "load2").2.1 (by simp)⟩

/-- C9: `completed_count` is the raw length of `progress.completed`
(stale identifiers included) and `all_completed` compares that count with
the catalog length; hence a progress record holding an identifier that
names no exercise makes `all_completed` true while a catalog exercise was
never marked completed. -/
theorem all_completed_ignores_catalog :
    (∀ (exs : List Exercise) (p : ProgressFile),
        total_count exs ≤ completed_count p → all_completed exs p = true)
      ∧ (∃ (exs : List Exercise) (p : ProgressFile),
          all_completed exs p = true
            ∧ (∃ e ∈ exs, p.completed.contains e.name = false)
            ∧ (∃ c ∈ p.completed, ∀ e ∈ exs, e.name ≠ c)) := by
  constructor
  · intro exs p h
    simpa [all_completed, ge_iff_le] using h
  · refine ⟨[ex_load1], progress_stale, by decide, ⟨ex_load1, by simp, by decide⟩,
      ⟨ "ghost", by simp [progress_stale], ?_⟩⟩
    intro e he
    rcases List.mem_singleton.mp he with rfl
    decide

/-- Witness for C9: the `whenever` direction of `all_completed` at the
stale record. -/
theorem all_completed_ignores_catalog_witness :
    all_completed [ex_load1] progress_stale = true :=
  all_completed_ignores_catalog.1 [ex_load1] progress_stale (by decide)

/-- C5 counterexample: after a single `observe()` (the source's
`should_process`) at time 0, a `ready_to_trigger()` query after a wait of
100 ms — shorter than the 300 ms window — returns `false`, not `true` as
the claim states. -/
theorem debounce_short_wait_cex :
    100 - 0 < 300
      ∧ ((Debouncer.new 300).should_process 0).1.ready_to_trigger 100 = false := by
  decide

/-- C5 amended: after a single `observe()` followed by a wait of at least
δ, `ready_to_trigger()` returns true; and after two `observe()` calls, a
query within δ of the second returns false. -/
theorem debounce_trailing_edge (dms t0 t1 t u : Nat)
    (h1 : t0 + dms ≤ t) (h2 : u - t1 < dms) :
    ((Debouncer.new dms).should_process t0).1.ready_to_trigger t = true
      ∧ (((Debouncer.new dms).should_process t0).1.should_process t1).1.ready_to_trigger u
          = false := by
  have hd : ((Debouncer.new dms).should_process t0).1 =
      { last_event_time := some t0, debounce_duration := dms } := rfl
  constructor
  · rw [hd]
    simp only [Debouncer.ready_to_trigger, decide_eq_true_eq]
    omega
  · rw [hd]
    by_cases hc : t1 - t0 < dms
    · simp only [Debouncer.should_process, if_pos hc, Debouncer.ready_to_trigger]
      simp only [decide_eq_false_iff_not]
      omega
    · simp only [Debouncer.should_process, if_neg hc, Debouncer.ready_to_trigger]
      simp only [decide_eq_false_iff_not]
      omega

/-- Witness for the amended C5 at δ = 300 ms, observes at 0 and 50 ms,
queries at 300 and 200 ms. -/
theorem debounce_trailing_edge_witness :
    ((Debouncer.new 300).should_process 0).1.ready_to_trigger 300 = true
      ∧ (((Debouncer.new 300).should_process 0).1.should_process 50).1.ready_to_trigger 200
          = false :=
  debounce_trailing_edge 300 0 50 300 200 (by decide) (by decide)

/-- C2: a `Result` whose exercise name differs from the current exercise
name at receipt changes nothing — the loop step returns the state
unchanged (completed set, on-disk progress, `last_verify`, current index
and output ring included) and performs no save. -/
theorem stale_result_preserves_state (s : LoopState) (r : VerifyResult)
    (nowIso : String) (saveOk : Bool)
    (h : r.exercise_name ≠ s.current_exercise.name) :
    handle_result s r nowIso saveOk = Except.ok s := by
  simp [handle_result, h]

/-- Witness for C2: the stale `Result` for `load2` while `load1` is
current is discarded. -/
theorem stale_result_preserves_state_witness :
    handle_result (init_state [ex_load1, ex_load2] none "0") result_load2_passed "1" true
      = Except.ok (init_state [ex_load1, ex_load2] none "0") :=
  stale_result_preserves_state _ _ _ _ (by decide)

/-- C4 counterexample: when the progress save fails while consuming a
passing, matching `Result`, the loop step propagates the error (the `?`
in `main` aborts the session) instead of continuing. -/
theorem save_failure_terminates_cex :
    handle_result (init_state [ex_load1, ex_load2] none "0") result_load1_passed "1" false
      = Except.error () := by
  rfl

/-- C4 amended: a failing progress save at a save point (consuming a
passing matching result, or the `Next` keypress) propagates as an error
out of the application loop, terminating the session; the canonical file
on disk is unchanged by the failed save. -/
theorem save_failure_propagates (s : LoopState) (r : VerifyResult) (nowIso : String)
    (hname : r.exercise_name = s.current_exercise.name) (hpass : r.passed = true) :
    handle_result s r nowIso false = Except.error ()
      ∧ handle_next s nowIso false = Except.error () := by
  constructor
  · simp [handle_result, hname, hpass, save_progress]
  · simp [handle_next, save_progress]

/-- Witness for the amended C4 at a concrete state and result. -/
theorem save_failure_propagates_witness :
    handle_result (init_state [ex_load1, ex_load2] none "0") result_load1_passed "1" false
      = Except.error ()
      ∧ handle_next (init_state [ex_load1, ex_load2] none "0") "1" false
        = Except.error () :=
  save_failure_propagates _ _ _ (by decide) (by decide)

/-- C1 (code bug): a reachable loop state has `verifying = true` while no
sent `Run` awaits consumption.  Trace: `Rerun` fires for `load1`, the
learner presses `Next` (current becomes `load2`), and the now-stale
`Result` for `load1` is consumed — the name-match guard skips the
`verifying = false` assignment, leaving the flag set forever. -/
theorem verifying_without_outstanding_run :
    ∃ s : LoopState,
      Reachable (init_state [ex_load1, ex_load2] none "0") s
        ∧ s.verifying = true ∧ s.pendingRuns = [] := by
  refine ⟨stale_trace_final, ?_, rfl, rfl⟩
  have h1 : Step (init_state [ex_load1, ex_load2] none "0")
      (handle_rerun (init_state [ex_load1, ex_load2] none "0")) := Step.rerun _
  have h2 : Step (handle_rerun (init_state [ex_load1, ex_load2] none "0"))
      { stale_trace_final with pendingRuns := ["load1"] } :=
    Step.next _ _ "1" true rfl
  have h3 : Step { stale_trace_final with pendingRuns := ["load1"] } stale_trace_final :=
    Step.result _ _ result_load1_passed [] "2" true rfl rfl
  exact Relation.ReflTransGen.head h1 (Relation.ReflTransGen.head h2
    (Relation.ReflTransGen.head h3 Relation.ReflTransGen.refl))

/-- C3 counterexample: when spawning the learner script fails,
`run_python_streaming` returns `Err` before sending `Done`, so the run's
message sequence contains a `Result` but no `Output(Done(_))` — the claim
that one `Output(Done(_))` always precedes the `Result` fails. -/
theorem worker_message_no_done_cex :
    (worker_run_messages true ex_load1
        ⟨ScriptExec.spawnFailed, ⟨CaptureExec.ran true "", ZenmlExec.ran true "" "" none⟩⟩).countP
        VerifyMessage.isDoneOutput = 0
      ∧ (worker_run_messages true ex_load1
          ⟨ScriptExec.spawnFailed, ⟨CaptureExec.ran true "", ZenmlExec.ran true "" "" none⟩⟩).countP
          VerifyMessage.isResult = 1 := by
  decide

/-- C3 amended: for every `Run`, the delivered sequence is zero or more
`Output(Stdout|Stderr)`, then — exactly when the streaming call returned
an exit status (spawn and wait succeeded) — one `Output(Done(_))`, then
exactly one `Result`, which is always the terminator; and at the worker
level every `Run` before the first `Stop` yields exactly one `Result`. -/
theorem worker_message_protocol (simpleMode : Bool) (ex : Exercise)
    (streaming : ScriptExec) (fullEnv : VerifyEnv) (items : List WorkItem) :
    (∃ (outs : List OutputLine) (r : VerifyResult),
        worker_run_messages simpleMode ex ⟨streaming, fullEnv⟩
            = outs.map VerifyMessage.Output
              ++ (match (run_python_streaming streaming).2 with
                  | some ok => [VerifyMessage.Output (OutputLine.Done ok)]
                  | none => [])
              ++ [VerifyMessage.Result r]
          ∧ ∀ l ∈ outs, (∃ t, l = OutputLine.Stdout t) ∨ (∃ t, l = OutputLine.Stderr t))
      ∧ (verification_worker simpleMode items).countP VerifyMessage.isResult
          = runs_before_stop items := by
  constructor
  · cases streaming with
    | spawnFailed =>
      refine ⟨[], worker_run_result simpleMode ex ⟨ScriptExec.spawnFailed, fullEnv⟩, ?_, ?_⟩
      · simp [worker_run_messages, run_python_streaming, forward_output]
      · simp
    | waitFailed lines =>
      refine ⟨lines.map StreamLine.toOutput,
        worker_run_result simpleMode ex ⟨ScriptExec.waitFailed lines, fullEnv⟩, ?_,
        stream_outputs_are_std lines⟩
      simp [worker_run_messages, run_python_streaming, forward_output_no_done]
    | exited lines ok =>
      refine ⟨lines.map StreamLine.toOutput,
        worker_run_result simpleMode ex ⟨ScriptExec.exited lines ok, fullEnv⟩, ?_,
        stream_outputs_are_std lines⟩
      simp [worker_run_messages, run_python_streaming, forward_output_with_done]
  · induction items with
    | nil => rfl
    | cons it rest ih =>
      cases it with
      | run ex' env' =>
        simp only [verification_worker, runs_before_stop, List.countP_append,
          worker_run_messages_one_result, ih]
        omega
      | stop => rfl

/-- C7 counterexample: when the status tool exits unsuccessfully the
result message is `"ZenML status check failed"`, not the claimed literal
`"status check failed"` (which it only contains). -/
theorem status_tool_failure_message_cex :
    ∃ r, verify_exercise ex_load1
          ⟨CaptureExec.ran true "", ZenmlExec.ran false "boom" "" none⟩ = Except.ok r
        ∧ r.outcome = VerifyOutcome.Failed
        ∧ r.message = "ZenML status check failed"
        ∧ ¬ r.message = "status check failed" := by
  refine ⟨_, rfl, rfl, rfl, by decide⟩

/-- C7 amended: whenever the learner script passed but the status tool
exits unsuccessfully, the result is `Failed` — never `Passed` — with
message `"ZenML status check failed"` (which contains the claimed phrase
`"status check failed"`). -/
theorem status_tool_failure_never_passes (ex : Exercise) (capOut zout zerr : String)
    (parsed : Option Json) :
    ∃ r, verify_exercise ex
          ⟨CaptureExec.ran true capOut, ZenmlExec.ran false zout zerr parsed⟩ = Except.ok r
        ∧ r.outcome = VerifyOutcome.Failed
        ∧ ¬ r.outcome = VerifyOutcome.Passed
        ∧ r.message = "ZenML status check failed"
        ∧ str_contains r.message "status check failed" := by
  refine ⟨_, rfl, rfl, by simp, rfl, ?_⟩
  exact zenml_check_message_contains

/-- C6: in full mode, when the script exits successfully and the status
tool succeeds, the outcome is `Passed` iff the first entry's parsed
status equals the exercise's expected status; on a mismatch the outcome
is `Failed` and the message quotes both the actual and the expected
status. -/
theorem full_mode_status_comparison (ex : Exercise) (capOut zout zerr : String)
    (parsed : Option Json) :
    ∃ r,
      verify_exercise ex ⟨CaptureExec.ran true capOut, ZenmlExec.ran true zout zerr parsed⟩
          = Except.ok r
        ∧ (r.outcome = VerifyOutcome.Passed ↔ parse_zenml_status parsed = some ex.verify_status)
        ∧ (∀ a, parse_zenml_status parsed = some a → a ≠ ex.verify_status →
            r.message = "Pipeline status '" ++ a ++ "', expected '" ++ ex.verify_status ++ "'"
              ∧ str_contains r.message ("'" ++ a ++ "'")
              ∧ str_contains r.message ("'" ++ ex.verify_status ++ "'"))
        ∧ (parse_zenml_status parsed = none → r.outcome = VerifyOutcome.Failed) := by
  cases hs : parse_zenml_status parsed with
  | none =>
    have hv : verify_exercise ex
        ⟨CaptureExec.ran true capOut, ZenmlExec.ran true zout zerr parsed⟩
        = Except.ok { exercise_name := ex.name
                      outcome := .Failed
                      python_exit_ok := true
                      python_output := capOut
                      zenml_checked := true
                      zenml_output := if zerr = "" then zout else zout ++ "\n" ++ zerr
                      message := "Pipeline status '" ++ "unknown" ++ "', expected '"
                        ++ ex.verify_status ++ "'" } := by
      simp [verify_exercise, run_python_capture, run_zenml_status_check, hs]
    refine ⟨_, hv, ?_, ?_, ?_⟩
    · simp
    · intro a ha hne
      simp at ha
    · intro _
      rfl
  | some a =>
    by_cases ha : a = ex.verify_status
    · subst ha
      have hv : verify_exercise ex
          ⟨CaptureExec.ran true capOut, ZenmlExec.ran true zout zerr parsed⟩
          = Except.ok { exercise_name := ex.name
                        outcome := .Passed
                        python_exit_ok := true
                        python_output := capOut
                        zenml_checked := true
                        zenml_output := if zerr = "" then zout else zout ++ "\n" ++ zerr
                        message := "Pipeline " ++ ex.verify_status } := by
        simp [verify_exercise, run_python_capture, run_zenml_status_check, hs]
      refine ⟨_, hv, ?_, ?_, ?_⟩
      · simp
      · intro a' ha' hne
        exact absurd (Option.some.inj ha').symm hne
      · intro h0
        simp at h0
    · have hv : verify_exercise ex
          ⟨CaptureExec.ran true capOut, ZenmlExec.ran true zout zerr parsed⟩
          = Except.ok { exercise_name := ex.name
                        outcome := .Failed
                        python_exit_ok := true
                        python_output := capOut
                        zenml_checked := true
                        zenml_output := if zerr = "" then zout else zout ++ "\n" ++ zerr
                        message := "Pipeline status '" ++ a ++ "', expected '"
                          ++ ex.verify_status ++ "'" } := by
        simp [verify_exercise, run_python_capture, run_zenml_status_check, hs, ha]
      refine ⟨_, hv, ?_, ?_, ?_⟩
      · simp [ha]
      · intro a' ha' hne
        rcases Option.some.inj ha' with rfl
        exact ⟨rfl, (message_contains_quoted a ex.verify_status).1,
          (message_contains_quoted a ex.verify_status).2⟩
      · intro h0
        rfl

/-- Witness for C6: the end-to-end mismatch scenario — parsed status
`"running"`, expected `"completed"` — yields `Failed` with a message
containing both quoted statuses. -/
theorem full_mode_status_comparison_witness :
    ∃ r,
      verify_exercise ex_load1
          ⟨CaptureExec.ran true "", ZenmlExec.ran true "" "" (some json_running)⟩
          = Except.ok r
        ∧ r.outcome = VerifyOutcome.Failed
        ∧ r.message = "Pipeline status 'running', expected 'completed'"
        ∧ str_contains r.message "'running'"
        ∧ str_contains r.message "'completed'" := by
  obtain ⟨r, hr, hiff, hmis, -⟩ :=
    full_mode_status_comparison ex_load1 "" "" "" (some json_running)
  have hp : parse_zenml_status (some json_running) = some "running" := by decide
  have h := hmis "running" hp (by decide)
  have hfail : r.outcome = VerifyOutcome.Failed := by
    cases hc : r.outcome
    · exact absurd (hiff.mp hc) (by decide)
    · rfl
  refine ⟨r, hr, hfail, ?_, ?_, ?_⟩
  · rw [h.1]
    decide
  · have hc := h.2.1
    rwa [show ( "'" ++ "running" ++ "'" : String) = "'running'" from rfl] at hc
  · have hc := h.2.2
    rwa [show ( "'" ++ ex_load1.verify_status ++ "'" : String) = "'completed'" from rfl] at hc

/-- C10: on a non-empty catalog `resolve_current_index` always returns an
in-bounds index; it is the index of the exercise named by
`progress.current` when present in the catalog; otherwise the index of
the first exercise not yet completed; and when every exercise is
completed, the last index. -/
theorem resolve_current_index_spec (exs : List Exercise) (p : ProgressFile)
    (hne : exs ≠ []) :
    resolve_current_index exs p < exs.length
      ∧ (∀ name i, p.current = some name →
          position (fun e => e.name == name) exs = some i →
          resolve_current_index exs p = i ∧ (exs.getD i default).name = name)
      ∧ (p.current.bind (fun name => position (fun e => e.name == name) exs) = none →
          ((∃ e ∈ exs, p.completed.contains e.name = false) →
            p.completed.contains ((exs.getD (resolve_current_index exs p) default).name)
                = false
              ∧ ∀ j, j < resolve_current_index exs p →
                  p.completed.contains ((exs.getD j default).name) = true)
            ∧ ((∀ e ∈ exs, p.completed.contains e.name = true) →
                resolve_current_index exs p = exs.length - 1)) := by
  have hlen : 0 < exs.length := List.length_pos.mpr hne
  cases hb : p.current.bind (fun name => position (fun e => e.name == name) exs) with
  | some i =>
    have hres : resolve_current_index exs p = i := by
      simp [resolve_current_index, hb]
    rcases Option.bind_eq_some.mp hb with ⟨name, hcur, hpos⟩
    refine ⟨?_, ?_, ?_⟩
    · rw [hres]
      exact position_lt_length hpos
    · intro name' i' hcur' hpos'
      rw [hcur] at hcur'
      rcases Option.some.inj hcur' with rfl
      rw [hpos] at hpos'
      rcases Option.some.inj hpos' with rfl
      refine ⟨hres, ?_⟩
      have := position_getD default hpos
      simpa [beq_iff_eq] using this
    · intro h0
      simp at h0
  | none =>
    have hres : resolve_current_index exs p = first_incomplete_index exs p := by
      unfold resolve_current_index
      rw [hb]
    have hvac : ∀ name i, p.current = some name →
        position (fun e => e.name == name) exs = some i →
        resolve_current_index exs p = i ∧ (exs.getD i default).name = name := by
      intro name i hcur hpos
      rw [hcur] at hb
      simp only [Option.some_bind] at hb
      rw [hpos] at hb
      cases hb
    cases hfi : position (fun e => !(p.completed.contains e.name)) exs with
    | some j =>
      have hfival : first_incomplete_index exs p = j := by
        unfold first_incomplete_index
        rw [hfi]
      refine ⟨?_, hvac, ?_⟩
      · rw [hres, hfival]
        exact position_lt_length hfi
      · intro _
        constructor
        · intro _
          rw [hres, hfival]
          constructor
          · have := position_getD default hfi
            simpa using this
          · intro k hk
            have := position_earlier default hfi k hk
            simpa using this
        · intro hall
          have hnone : position (fun e => !(p.completed.contains e.name)) exs = none :=
            position_eq_none_iff.mpr (fun e he => by simpa using hall e he)
          rw [hfi] at hnone
          cases hnone
    | none =>
      have hfival : first_incomplete_index exs p = exs.length - 1 := by
        unfold first_incomplete_index
        rw [hfi]
      refine ⟨?_, hvac, ?_⟩
      · rw [hres, hfival]
        omega
      · intro _
        constructor
        · intro ⟨e, he, hce⟩
          have h2 := position_eq_none_iff.mp hfi e he
          simp at h2
          exact absurd h2 (by simpa using hce)
        · intro _
          rw [hres, hfival]

/-- Witness for C10 at a concrete catalog and progress record whose
`current` names the second exercise. -/
theorem resolve_current_index_spec_witness :
    resolve_current_index [ex_load1, ex_load2] progress_current_load2
        < [ex_load1, ex_load2].length
      ∧ resolve_current_index [ex_load1, ex_load2] progress_current_load2 = 1 := by
  have h := resolve_current_index_spec [ex_load1, ex_load2] progress_current_load2
    (by decide)
  exact ⟨h.1, (h.2.1 "load2" 1 rfl (by decide)).1⟩

end Zenlings
